import Mathlib

/-!
Verification of the inventory stock-ledger core of the Stitch_Desk
repository (Django app `backend/inventory`).

The embedding below is a shallow model of `inventory/models.py`,
`inventory/serializers.py` and `inventory/views.py`.  Stock decimals
(Django `DecimalField(max_digits=10, decimal_places=2)`) are exact
two-decimal-place numbers, and the ledger core only adds, subtracts,
negates, compares and takes absolute values of them, so they are
represented exactly as integers counting hundredths of a unit
(`0.01` is `1`, `5.00` is `500`); database rows are records in lists;
the ORM `save`/`create` calls become functional state updates.  Each
HTTP view becomes a function from a state and the request data to a new
state plus the response the view builds.  The `max_digits=10` magnitude
cap is elided, as no claim depends on it.
-/

namespace StitchDesk

/-- Python `abs` on a decimal value (an `Int` counting hundredths of a
unit, per the representation described above). -/
def absDec (d : Int) : Int :=
  if d < 0 then -d else d

/-- Transaction types of `StockHistory.TRANSACTION_TYPE_CHOICES`
(`inventory/models.py`): IN, OUT, ADJUSTMENT. -/
inductive TransactionType
  | tIN
  | tOUT
  | tADJUSTMENT
deriving Repr, DecidableEq

/-- Reasons of `StockHistory.REASON_CHOICES` (`inventory/models.py`). -/
inductive Reason
  | PURCHASE
  | ORDER_USAGE
  | DAMAGED
  | RETURNED
  | MANUAL_ADJUSTMENT
  | INITIAL_STOCK
  | ORDER_CANCELLED
deriving Repr, DecidableEq

/-- An `InventoryItem` row (`inventory/models.py`).  Ids are modelled as
naturals standing for the UUID primary keys; `userId`/`shopId` are the
`user`/`shop` foreign keys.  Text fields not used by any claim
(description, sku, timestamps) are elided. -/
structure InventoryItem where
  id : Nat
  userId : Nat
  shopId : Nat
  categoryId : Option Nat
  name : String
  unit : String
  current_stock : Int
  minimum_stock : Int
  is_active : Bool
  is_deleted : Bool
deriving Repr, DecidableEq

/-- Derived property `InventoryItem.is_low_stock` (`inventory/models.py`):
`current_stock < minimum_stock`. -/
def InventoryItem.is_low_stock (it : InventoryItem) : Bool :=
  decide (it.current_stock < it.minimum_stock)

/-- A `StockHistory` row (`inventory/models.py`): the append-only ledger
entry.  `order` and `order_material` are the nullable foreign keys. -/
structure StockHistory where
  id : Nat
  inventory_item : Nat
  transaction_type : TransactionType
  reason : Reason
  quantity : Int
  stock_before : Int
  stock_after : Int
  order : Option Nat
  order_material : Option Nat
  supplier_name : String
  notes : String
deriving Repr, DecidableEq

/-- An `OrderMaterial` row (`inventory/models.py`): binds a quantity of an
inventory item to an order.  `unit_price` is always set to `None` by
`AddOrderMaterialsView.post`, so it is elided here. -/
structure OrderMaterial where
  id : Nat
  order : Nat
  inventory_item : Nat
  quantity : Int
  notes : String
deriving Repr, DecidableEq

/-- An `Order` row (`orders/models.py`), restricted to the fields the
inventory views read: `id`, owning `user`, `order_number`, `is_deleted`. -/
structure Order where
  id : Nat
  userId : Nat
  order_number : String
  is_deleted : Bool
deriving Repr, DecidableEq

/-- A caller identity: `request.user` with its `shop` foreign key
(`accounts/models.py`: `User.shop`, shops are shared by several staff
users). -/
structure User where
  id : Nat
  shopId : Nat
deriving Repr, DecidableEq

/-- Errors the inventory views signal.  `invalidQuantity` is the DRF
serializer rejecting the payload (`min_value` violated), `notFound` is a
404 from `get_object`/`get`, `insufficientStock` carries the available
balance that the view puts into the error message. -/
inductive StockError
  | invalidQuantity
  | insufficientStock (available : Int)
  | notFound
deriving Repr, DecidableEq

/-- Values appearing in a JSON response body. -/
inductive RespVal
  | str (s : String)
  | num (q : Int)
  | natId (n : Nat)
deriving Repr, DecidableEq

/-- A JSON response body: key/value pairs, as built literally by the
views. -/
abbrev RespBody := List (String × RespVal)

/-- An HTTP response: status code plus optional body (`destroy` returns
`HTTP_204_NO_CONTENT` with no body). -/
structure HttpResp where
  status : Nat
  body : Option RespBody
deriving Repr, DecidableEq

/-- The serializer lower bound `min_value=0.01` used by
`StockInSerializer.quantity` and `OrderMaterialCreateSerializer.quantity`
(`inventory/serializers.py`). -/
def minQuantity : Int := 1

/-- `StockInSerializer` validation: `quantity` is a decimal with
`min_value=0.01`. -/
def stockInQuantityOk (q : Int) : Bool :=
  decide (minQuantity ≤ q)

/-- `OrderMaterialCreateSerializer` validation: `quantity` has
`min_value=0.01`. -/
def quantityLineOk (q : Int) : Bool :=
  decide (minQuantity ≤ q)

/-- `StockAdjustmentSerializer` validation: `new_stock` has
`min_value=0`. -/
def adjustNewStockOk (q : Int) : Bool :=
  decide (0 ≤ q)

/-- `StockAdjustmentSerializer` validation: `reason` is restricted to the
choices DAMAGED and MANUAL_ADJUSTMENT. -/
def adjustReasonOk (r : Reason) : Bool :=
  r == Reason.DAMAGED || r == Reason.MANUAL_ADJUSTMENT

/-- Per-item state for the Movement Engine operations: the item row, the
ledger rows of that item (in creation order), the `OrderMaterial` rows
bound to it, and the fresh-id counters standing for the database
generating new primary keys. -/
structure ItemState where
  item : InventoryItem
  history : List StockHistory
  materials : List OrderMaterial
  nextHistoryId : Nat
  nextMaterialId : Nat
deriving Repr, DecidableEq

/-- `InventoryItemViewSet.stock_in` (`inventory/views.py` lines 152-181),
after `get_object` resolved the item: validate `quantity` with
`StockInSerializer`, add it to `current_stock`, create one
StockHistory row {IN, PURCHASE} with before/after snapshots, and respond
with a message plus the updated `current_stock`. -/
def stock_in (s : ItemState) (quantity : Int) (supplier_name notes : String) :
    Except StockError (ItemState × HttpResp) :=
  if stockInQuantityOk quantity then
    let stock_before := s.item.current_stock
    let item2 := { s.item with current_stock := stock_before + quantity }
    let entry : StockHistory :=
      { id := s.nextHistoryId
        inventory_item := s.item.id
        transaction_type := TransactionType.tIN
        reason := Reason.PURCHASE
        quantity := quantity
        stock_before := stock_before
        stock_after := item2.current_stock
        order := none
        order_material := none
        supplier_name := supplier_name
        notes := notes }
    Except.ok
      ({ s with
          item := item2
          history := s.history ++ [entry]
          nextHistoryId := s.nextHistoryId + 1 },
        { status := 200
          body := some
            [("message", RespVal.str
                ("Added " ++ toString quantity ++ " " ++ item2.unit
                  ++ " to " ++ item2.name)),
              ("current_stock", RespVal.num item2.current_stock)] })
  else
    Except.error StockError.invalidQuantity

/-- `InventoryItemViewSet.adjust_stock` (`inventory/views.py` lines
189-218): validate with `StockAdjustmentSerializer`, set `current_stock`
to `new_stock` directly, create one StockHistory row of type ADJUSTMENT
whose quantity is `abs(new_stock - stock_before)`, and respond with a
message plus the updated `current_stock`. -/
def adjust_stock (s : ItemState) (new_stock : Int) (reason : Reason)
    (notes : String) : Except StockError (ItemState × HttpResp) :=
  if adjustNewStockOk new_stock && adjustReasonOk reason then
    let stock_before := s.item.current_stock
    let difference := new_stock - stock_before
    let item2 := { s.item with current_stock := new_stock }
    let entry : StockHistory :=
      { id := s.nextHistoryId
        inventory_item := s.item.id
        transaction_type := TransactionType.tADJUSTMENT
        reason := reason
        quantity := absDec difference
        stock_before := stock_before
        stock_after := new_stock
        order := none
        order_material := none
        supplier_name := ""
        notes := notes }
    Except.ok
      ({ s with
          item := item2
          history := s.history ++ [entry]
          nextHistoryId := s.nextHistoryId + 1 },
        { status := 200
          body := some
            [("message", RespVal.str
                ("Stock adjusted from " ++ toString stock_before
                  ++ " to " ++ toString new_stock)),
              ("current_stock", RespVal.num item2.current_stock)] })
  else
    Except.error StockError.invalidQuantity

/-- The error message `AddOrderMaterialsView.post` builds for a line whose
requested quantity exceeds the available balance. -/
def insufficientMsg (available : Int) (unit : String) : String :=
  "Insufficient stock. Available: " ++ toString available ++ " " ++ unit

/-- The per-line body of `AddOrderMaterialsView.post` (`inventory/views.py`
lines 316-370) specialised to one already-resolved item: check
availability (`item.current_stock < quantity` collects an error and does
not deduct), otherwise deduct the stock, create the `OrderMaterial`
binding and one StockHistory row {OUT, ORDER_USAGE} linked to the order
and the binding.  The quantity was validated by
`OrderMaterialCreateSerializer` before the loop. -/
def deduct_for_order_usage (s : ItemState) (quantity : Int) (orderId : Nat)
    (order_number : String) :
    Except StockError (ItemState × OrderMaterial) :=
  if quantityLineOk quantity then
    if s.item.current_stock < quantity then
      Except.error (StockError.insufficientStock s.item.current_stock)
    else
      let stock_before := s.item.current_stock
      let item2 := { s.item with current_stock := stock_before - quantity }
      let om : OrderMaterial :=
        { id := s.nextMaterialId
          order := orderId
          inventory_item := s.item.id
          quantity := quantity
          notes := "" }
      let entry : StockHistory :=
        { id := s.nextHistoryId
          inventory_item := s.item.id
          transaction_type := TransactionType.tOUT
          reason := Reason.ORDER_USAGE
          quantity := quantity
          stock_before := stock_before
          stock_after := item2.current_stock
          order := some orderId
          order_material := some om.id
          supplier_name := ""
          notes := "Used in order " ++ order_number }
      Except.ok
        ({ item := item2
           history := s.history ++ [entry]
           materials := s.materials ++ [om]
           nextHistoryId := s.nextHistoryId + 1
           nextMaterialId := s.nextMaterialId + 1 }, om)
  else
    Except.error StockError.invalidQuantity

/-- `OrderMaterialViewSet.destroy` (`inventory/views.py` lines 260-286):
resolve the `OrderMaterial` (404 if absent), add its quantity back to the
item balance, create one StockHistory row {IN, ORDER_CANCELLED} linked to
the order, delete the binding, and return `HTTP_204_NO_CONTENT` with no
body. -/
def destroy_order_material (s : ItemState) (materialId : Nat)
    (order_number : String) : Except StockError (ItemState × HttpResp) :=
  match s.materials.find? (fun m => m.id == materialId) with
  | none => Except.error StockError.notFound
  | some m =>
      let stock_before := s.item.current_stock
      let item2 := { s.item with current_stock := stock_before + m.quantity }
      let entry : StockHistory :=
        { id := s.nextHistoryId
          inventory_item := s.item.id
          transaction_type := TransactionType.tIN
          reason := Reason.ORDER_CANCELLED
          quantity := m.quantity
          stock_before := stock_before
          stock_after := item2.current_stock
          order := some m.order
          order_material := none
          supplier_name := ""
          notes := "Material removed from order " ++ order_number }
      Except.ok
        ({ s with
            item := item2
            history := s.history ++ [entry]
            materials := s.materials.filter (fun x => x.id != materialId) },
          { status := 204, body := none })

/-- `InventoryItemViewSet.perform_create` (`inventory/views.py` lines
103-119): after the item row is saved, when `current_stock > 0` one
StockHistory row {IN, INITIAL_STOCK} with `stock_before = 0` is created;
otherwise none. -/
def perform_create_item (item : InventoryItem) (hid : Nat) :
    List StockHistory :=
  if 0 < item.current_stock then
    [{ id := hid
       inventory_item := item.id
       transaction_type := TransactionType.tIN
       reason := Reason.INITIAL_STOCK
       quantity := item.current_stock
       stock_before := 0
       stock_after := item.current_stock
       order := none
       order_material := none
       supplier_name := ""
       notes := "Initial stock on item creation" }]
  else []

/-- One Movement Engine request against a single item, abstracting the
four balance-mutating views. -/
inductive MovementOp
  | stockIn (quantity : Int) (supplier_name notes : String)
  | adjustStock (new_stock : Int) (reason : Reason) (notes : String)
  | deductForOrderUsage (quantity : Int) (orderId : Nat) (order_number : String)
  | restoreForOrderCancellation (materialId : Nat) (order_number : String)
deriving Repr, DecidableEq

/-- Apply one Movement Engine operation to a per-item state, dropping the
HTTP response. -/
def applyOp (s : ItemState) : MovementOp → Except StockError ItemState
  | MovementOp.stockIn q sup n => (stock_in s q sup n).map Prod.fst
  | MovementOp.adjustStock ns r n => (adjust_stock s ns r n).map Prod.fst
  | MovementOp.deductForOrderUsage q oid onum =>
      (deduct_for_order_usage s q oid onum).map Prod.fst
  | MovementOp.restoreForOrderCancellation mid onum =>
      (destroy_order_material s mid onum).map Prod.fst

/-- Run a sequence of Movement Engine operations; a failed operation
leaves the state unchanged (the view returns an error response and
nothing was written). -/
def runOps (s : ItemState) : List MovementOp → ItemState
  | [] => s
  | op :: rest =>
      match applyOp s op with
      | Except.ok s2 => runOps s2 rest
      | Except.error _ => runOps s rest

/-- The signed balance delta a successful operation applies, computed from
the pre-state: `+quantity` for stock-in, `new_stock - current` for an
adjustment, `-quantity` for an order-usage deduction, and the bound
material quantity for a restoration. -/
def stepDelta (s : ItemState) : MovementOp → Int
  | MovementOp.stockIn q _ _ => q
  | MovementOp.adjustStock ns _ _ => ns - s.item.current_stock
  | MovementOp.deductForOrderUsage q _ _ => -q
  | MovementOp.restoreForOrderCancellation mid _ =>
      match s.materials.find? (fun m => m.id == mid) with
      | some m => m.quantity
      | none => 0

/-- Well-formedness of a per-item state, as established by the Django
model validators and the serializers: the balance is non-negative
(`MinValueValidator(0)` on `current_stock`), every bound material has
quantity at least 0.01 (`MinValueValidator(0.01)` on
`OrderMaterial.quantity`), and material ids are below the fresh-id
counter (primary keys are only generated on create). -/
def WF (s : ItemState) : Prop :=
  0 ≤ s.item.current_stock ∧
    (∀ m ∈ s.materials, minQuantity ≤ m.quantity) ∧
    (∀ m ∈ s.materials, m.id < s.nextMaterialId)

instance (s : ItemState) : Decidable (WF s) := by
  unfold WF
  exact inferInstance

/-- The whole persisted inventory state of the database, as the views see
it: item rows, ledger rows, binding rows, order rows, and fresh-id
counters. -/
structure Store where
  items : List InventoryItem
  history : List StockHistory
  materials : List OrderMaterial
  orders : List Order
  nextHistoryId : Nat
  nextMaterialId : Nat
deriving Repr, DecidableEq

/-- `InventoryItemViewSet.get_queryset` (`inventory/views.py` lines
80-101) without the optional query parameters: items filtered by
`user=request.user` and `is_deleted=False`.  The optional category,
low-stock and name-search refinements are modelled separately by
`items_queryset`. -/
def items_get_queryset (st : Store) (u : User) : List InventoryItem :=
  st.items.filter (fun it => it.userId == u.id && !it.is_deleted)

/-- `InventoryItemViewSet.get_queryset` with the `category` and
`low_stock` query parameters applied (the `search` name-substring filter
is not needed by any claim and is elided). -/
def items_queryset (st : Store) (u : User) (category : Option Nat)
    (low_stock : Bool) : List InventoryItem :=
  let base := items_get_queryset st u
  let base :=
    match category with
    | some cid => base.filter (fun it => it.categoryId == some cid)
    | none => base
  if low_stock then
    base.filter (fun it => decide (it.current_stock < it.minimum_stock))
  else base

/-- DRF `get_object`: look the pk up inside `get_queryset`; a miss is a
404. -/
def items_get_object (st : Store) (u : User) (iid : Nat) :
    Option InventoryItem :=
  (items_get_queryset st u).find? (fun it => it.id == iid)

/-- `InventoryItemViewSet.perform_destroy` as reached through `destroy`
(`inventory/views.py` lines 121-124): resolve through `get_object` (404
if missing), then soft delete by setting `is_deleted = True` on the item
row.  History, material and order rows are untouched. -/
def item_destroy (st : Store) (u : User) (iid : Nat) : Store × HttpResp :=
  match items_get_object st u iid with
  | none => (st, { status := 404, body := none })
  | some it =>
      ({ st with
          items := st.items.map (fun x =>
            if x.id == it.id then { x with is_deleted := true } else x) },
        { status := 204, body := none })

/-- `InventoryItemViewSet.history` (`inventory/views.py` lines 225-231):
resolve the item through `get_object` (so through the
`is_deleted=False` queryset), then return its ledger rows newest-first
capped at 50. -/
def item_history (st : Store) (u : User) (iid : Nat) :
    Except StockError (List StockHistory) :=
  match items_get_object st u iid with
  | none => Except.error StockError.notFound
  | some it =>
      Except.ok
        (((st.history.filter (fun e => e.inventory_item == it.id)).reverse).take 50)

/-- One line of the `BulkOrderMaterialSerializer` payload
(`OrderMaterialCreateSerializer`): target item id, quantity, notes. -/
structure MaterialLine where
  inventory_item : Nat
  quantity : Int
  notes : String
deriving Repr, DecidableEq

/-- A per-line error of `AddOrderMaterialsView.post`: the pair of the
`item` and `error` strings the view appends to `errors`. -/
abbrev LineErr := String × String

/-- The item lookup of `AddOrderMaterialsView.post` (lines 317-322):
`InventoryItem.objects.get(id=..., user=request.user, is_deleted=False)`;
`None` models `InventoryItem.DoesNotExist`. -/
def findItem (st : Store) (u : User) (iid : Nat) : Option InventoryItem :=
  st.items.find? (fun it => it.id == iid && it.userId == u.id && !it.is_deleted)

/-- Write an updated balance back to the item rows (`item.save()`). -/
def setItemStock (items : List InventoryItem) (iid : Nat) (newStock : Int) :
    List InventoryItem :=
  items.map (fun it =>
    if it.id == iid then { it with current_stock := newStock } else it)

/-- Outcome of one iteration of the `AddOrderMaterialsView.post` loop:
either a per-line error is collected (store untouched), or the store is
updated and a binding created. -/
inductive LineResult
  | lineError (err : LineErr)
  | lineOk (st2 : Store) (om : OrderMaterial)
deriving Repr

/-- The loop body of `AddOrderMaterialsView.post` (`inventory/views.py`
lines 316-370): resolve the line item scoped to the caller and not
soft-deleted (collect an error on a miss), check availability
(`item.current_stock < quantity` collects an error carrying the available
balance, no deduction), otherwise deduct the stock, create the
`OrderMaterial` binding and one {OUT, ORDER_USAGE} ledger row linked to
the order and the binding. -/
def processLine (u : User) (order : Order) (st : Store)
    (line : MaterialLine) : LineResult :=
  match findItem st u line.inventory_item with
  | none =>
      LineResult.lineError (toString line.inventory_item, "Item not found")
  | some item =>
      if item.current_stock < line.quantity then
        LineResult.lineError
          (item.name, insufficientMsg item.current_stock item.unit)
      else
        let stock_before := item.current_stock
        let newStock := stock_before - line.quantity
        let om : OrderMaterial :=
          { id := st.nextMaterialId
            order := order.id
            inventory_item := item.id
            quantity := line.quantity
            notes := line.notes }
        let entry : StockHistory :=
          { id := st.nextHistoryId
            inventory_item := item.id
            transaction_type := TransactionType.tOUT
            reason := Reason.ORDER_USAGE
            quantity := line.quantity
            stock_before := stock_before
            stock_after := newStock
            order := some order.id
            order_material := some om.id
            supplier_name := ""
            notes := "Used in order " ++ order.order_number }
        LineResult.lineOk
          { st with
              items := setItemStock st.items item.id newStock
              materials := st.materials ++ [om]
              history := st.history ++ [entry]
              nextMaterialId := st.nextMaterialId + 1
              nextHistoryId := st.nextHistoryId + 1 }
          om

/-- The sequential loop of `AddOrderMaterialsView.post` over the payload
lines: each iteration either records a per-line error and keeps the
store, or threads the updated store on; created bindings and errors are
collected in request order. -/
def bulkFold (u : User) (order : Order) (st : Store) :
    List MaterialLine → Store × List OrderMaterial × List LineErr
  | [] => (st, [], [])
  | line :: rest =>
      match processLine u order st line with
      | LineResult.lineError err =>
          let r := bulkFold u order st rest
          (r.1, r.2.1, err :: r.2.2)
      | LineResult.lineOk st1 om =>
          let r := bulkFold u order st1 rest
          (r.1, om :: r.2.1, r.2.2)

/-- The possible outcomes of `AddOrderMaterialsView.post`:
`orderNotFound` is the 404 for a missing/foreign/deleted order,
`invalidPayload` is the DRF serializer rejecting some line before the
loop runs, `failure` is the 400 returned when errors were collected and
nothing was created, `success` is the 201 carrying the created bindings
and (when non-empty) the per-line errors. -/
inductive BulkResult
  | orderNotFound
  | invalidPayload
  | failure (errors : List LineErr)
  | success (materials : List OrderMaterial) (errors : List LineErr)
deriving Repr, DecidableEq

/-- `AddOrderMaterialsView.post` (`inventory/views.py` lines 298-379):
resolve the order scoped to the caller (`user=request.user`,
`is_deleted=False`); validate every payload line with
`BulkOrderMaterialSerializer`; run the per-line loop inside one
transaction; return 400 with the errors when errors exist and nothing
was created, otherwise 201 with the created bindings plus any errors. -/
def add_order_materials (st : Store) (u : User) (orderId : Nat)
    (lines : List MaterialLine) : Store × BulkResult :=
  match st.orders.find? (fun o =>
      o.id == orderId && o.userId == u.id && !o.is_deleted) with
  | none => (st, BulkResult.orderNotFound)
  | some order =>
      if lines.all (fun l => quantityLineOk l.quantity) then
        let (st2, created, errs) := bulkFold u order st lines
        if !errs.isEmpty && created.isEmpty then
          (st2, BulkResult.failure errs)
        else
          (st2, BulkResult.success created errs)
      else (st, BulkResult.invalidPayload)

/-- `OrderMaterialViewSet.get_queryset` (`inventory/views.py` lines
239-249): bindings whose order belongs to the calling user
(`order__user=request.user`), optionally narrowed to one order. -/
def order_materials_queryset (st : Store) (u : User)
    (orderFilter : Option Nat) : List OrderMaterial :=
  let base := st.materials.filter (fun m =>
    (st.orders.find? (fun o => o.id == m.order)).any (fun o => o.userId == u.id))
  match orderFilter with
  | some oid => base.filter (fun m => m.order == oid)
  | none => base

/-- The per-entry ledger consistency relation of the spec:
`stock_after - stock_before` is `+quantity` for IN entries, `-quantity`
for OUT entries, and has absolute value `quantity` for ADJUSTMENT
entries. -/
def entryConsistent (e : StockHistory) : Bool :=
  match e.transaction_type with
  | TransactionType.tIN => e.stock_after - e.stock_before == e.quantity
  | TransactionType.tOUT => e.stock_after - e.stock_before == -e.quantity
  | TransactionType.tADJUSTMENT =>
      absDec (e.stock_after - e.stock_before) == e.quantity

/-- A concrete inventory item used to instantiate proved theorems. -/
def exItem : InventoryItem :=
  { id := 1
    userId := 1
    shopId := 1
    categoryId := none
    name := "Thread"
    unit := "SPOOL"
    current_stock := 500
    minimum_stock := 100
    is_active := true
    is_deleted := false }

/-- A concrete per-item state (balance 5.00, empty ledger) used to
instantiate proved theorems. -/
def exState : ItemState :=
  { item := exItem
    history := []
    materials := []
    nextHistoryId := 0
    nextMaterialId := 0 }

/-- A concrete operation sequence: stock-in 2.00 then deduct 3.00. -/
def exOps : List MovementOp :=
  [MovementOp.stockIn 200 "Acme" "",
    MovementOp.deductForOrderUsage 300 1 "ORD-1"]

/-- The state obtained from `exState` by a successful stock-in of 2.00,
used to instantiate proved theorems. -/
def exStockInResult : ItemState :=
  runOps exState [MovementOp.stockIn 200 "Acme" ""]

/-- The HTTP response of the concrete stock-in used by the witnesses. -/
def exStockInResp : HttpResp :=
  (((stock_in exState 200 "Acme" "").toOption).map Prod.snd).getD
    { status := 0, body := none }

/-- A concrete binding of 2.00 of the example item to order 1. -/
def exMaterial : OrderMaterial :=
  { id := 1, order := 1, inventory_item := 1, quantity := 200, notes := "" }

/-- A concrete per-item state holding one binding, used to instantiate
proved theorems about `destroy`. -/
def exStateWithMaterial : ItemState :=
  { item := exItem
    history := []
    materials := [exMaterial]
    nextHistoryId := 5
    nextMaterialId := 2 }

/-- A concrete order owned by user 1. -/
def exOrder : Order :=
  { id := 1, userId := 1, order_number := "ORD-1", is_deleted := false }

/-- The owner of the example rows (user 1 in shop 1). -/
def exUser : User :=
  { id := 1, shopId := 1 }

/-- A second staff user of the same shop (user 2 in shop 1). -/
def exUser2 : User :=
  { id := 2, shopId := 1 }

/-- A concrete INITIAL_STOCK ledger row for the example item. -/
def exHistEntry : StockHistory :=
  { id := 0
    inventory_item := 1
    transaction_type := TransactionType.tIN
    reason := Reason.INITIAL_STOCK
    quantity := 500
    stock_before := 0
    stock_after := 500
    order := none
    order_material := none
    supplier_name := ""
    notes := "Initial stock on item creation" }

/-- A concrete store: one item (balance 5.00), its INITIAL_STOCK ledger
row, one binding, one order. -/
def exStore : Store :=
  { items := [exItem]
    history := [exHistEntry]
    materials := [exMaterial]
    orders := [exOrder]
    nextHistoryId := 1
    nextMaterialId := 2 }

/-- Bulk payload line: 3.00 of item 1. -/
def exLine1 : MaterialLine :=
  { inventory_item := 1, quantity := 300, notes := "" }

/-- Bulk payload line: 2.50 of item 1 (more than remains after
`exLine1`). -/
def exLine2 : MaterialLine :=
  { inventory_item := 1, quantity := 250, notes := "" }

/-- Bulk payload line referencing a missing item id. -/
def exBadLine : MaterialLine :=
  { inventory_item := 99, quantity := 100, notes := "" }

/-- A concrete bulk payload: a valid line and a missing-item line. -/
def exBulkLines : List MaterialLine :=
  [exLine1, exBadLine]

/-- The result of running the bulk loop on the concrete payload. -/
def exBulkResult : Store × List OrderMaterial × List LineErr :=
  bulkFold exUser exOrder exStore exBulkLines

/-- Inversion for a successful `stock_in`: the quantity passed validation
and the result is the expected record. -/
theorem stock_in_ok_inv (s : ItemState) (q : Int) (sup n : String)
    (out : ItemState × HttpResp) (h : stock_in s q sup n = Except.ok out) :
    stockInQuantityOk q = true ∧
      out.1.item = { s.item with current_stock := s.item.current_stock + q } ∧
      out.1.materials = s.materials ∧
      out.1.nextMaterialId = s.nextMaterialId ∧
      ∃ e, out.1.history = s.history ++ [e] ∧
        e.transaction_type = TransactionType.tIN ∧
        e.quantity = q ∧ e.stock_before = s.item.current_stock ∧
        e.stock_after = s.item.current_stock + q := by
  unfold stock_in at h
  split at h
  · cases h
    refine ⟨by assumption, rfl, rfl, rfl, ?_⟩
    exact ⟨_, rfl, rfl, rfl, rfl, rfl⟩
  · cases h

/-- Inversion for a successful `adjust_stock`. -/
theorem adjust_stock_ok_inv (s : ItemState) (ns : Int) (r : Reason)
    (n : String) (out : ItemState × HttpResp)
    (h : adjust_stock s ns r n = Except.ok out) :
    (adjustNewStockOk ns && adjustReasonOk r) = true ∧
      out.1.item = { s.item with current_stock := ns } ∧
      out.1.materials = s.materials ∧
      out.1.nextMaterialId = s.nextMaterialId ∧
      ∃ e, out.1.history = s.history ++ [e] ∧
        e.transaction_type = TransactionType.tADJUSTMENT ∧
        e.quantity = absDec (ns - s.item.current_stock) ∧
        e.stock_before = s.item.current_stock ∧ e.stock_after = ns := by
  unfold adjust_stock at h
  split at h
  · cases h
    refine ⟨by assumption, rfl, rfl, rfl, ?_⟩
    exact ⟨_, rfl, rfl, rfl, rfl, rfl⟩
  · cases h

/-- Inversion for a successful `deduct_for_order_usage`. -/
theorem deduct_ok_inv (s : ItemState) (q : Int) (oid : Nat)
    (onum : String) (out : ItemState × OrderMaterial)
    (h : deduct_for_order_usage s q oid onum = Except.ok out) :
    quantityLineOk q = true ∧ ¬ s.item.current_stock < q ∧
      out.1.item = { s.item with current_stock := s.item.current_stock - q } ∧
      out.1.materials = s.materials ++ [out.2] ∧
      out.2.quantity = q ∧ out.2.id = s.nextMaterialId ∧
      out.1.nextMaterialId = s.nextMaterialId + 1 ∧
      ∃ e, out.1.history = s.history ++ [e] ∧
        e.transaction_type = TransactionType.tOUT ∧
        e.quantity = q ∧ e.stock_before = s.item.current_stock ∧
        e.stock_after = s.item.current_stock - q := by
  unfold deduct_for_order_usage at h
  split at h
  · split at h
    · cases h
    · cases h
      refine ⟨by assumption, by assumption, rfl, rfl, rfl, rfl, rfl, ?_⟩
      exact ⟨_, rfl, rfl, rfl, rfl, rfl⟩
  · cases h

/-- Inversion for a successful `destroy_order_material`. -/
theorem destroy_ok_inv (s : ItemState) (mid : Nat) (onum : String)
    (out : ItemState × HttpResp)
    (h : destroy_order_material s mid onum = Except.ok out) :
    ∃ m, s.materials.find? (fun x => x.id == mid) = some m ∧
      out.1.item = { s.item with current_stock := s.item.current_stock + m.quantity } ∧
      out.1.materials = s.materials.filter (fun x => x.id != mid) ∧
      out.1.nextMaterialId = s.nextMaterialId ∧
      out.2 = { status := 204, body := none } ∧
      ∃ e, out.1.history = s.history ++ [e] ∧
        e.transaction_type = TransactionType.tIN ∧
        e.quantity = m.quantity ∧ e.stock_before = s.item.current_stock ∧
        e.stock_after = s.item.current_stock + m.quantity := by
  unfold destroy_order_material at h
  split at h
  · cases h
  · next m hm =>
      cases h
      exact ⟨m, hm, rfl, rfl, rfl, rfl, _, rfl, rfl, rfl, rfl, rfl⟩

/-- A successful Movement Engine step changes the balance by exactly the
signed delta of that step, keeps the balance non-negative, and preserves
well-formedness. -/
theorem applyOp_ok_balance (s s2 : ItemState) (op : MovementOp)
    (hwf : WF s) (h : applyOp s op = Except.ok s2) :
    s2.item.current_stock = s.item.current_stock + stepDelta s op ∧
      0 ≤ s2.item.current_stock ∧ WF s2 := by
  obtain ⟨h0, hq, hid⟩ := hwf
  have hmin : (minQuantity : Int) = 1 := rfl
  cases op with
  | stockIn q sup n =>
      simp only [applyOp] at h
      cases hs : stock_in s q sup n with
      | error e => rw [hs] at h; exact Except.noConfusion h
      | ok out =>
          rw [hs] at h
          simp only [Except.map, Except.ok.injEq] at h
          subst h
          obtain ⟨hv, hitem, hmat, hnid, -⟩ := stock_in_ok_inv s q sup n out hs
          have hq1 : (1 : Int) ≤ q := of_decide_eq_true hv
          refine ⟨?_, ?_, ?_, ?_, ?_⟩
          · rw [hitem]; rfl
          · rw [hitem]
            show 0 ≤ s.item.current_stock + q
            omega
          · rw [hitem]
            show 0 ≤ s.item.current_stock + q
            omega
          · intro m hm; rw [hmat] at hm; exact hq m hm
          · intro m hm; rw [hmat] at hm; rw [hnid]; exact hid m hm
  | adjustStock ns r n =>
      simp only [applyOp] at h
      cases hs : adjust_stock s ns r n with
      | error e => rw [hs] at h; exact Except.noConfusion h
      | ok out =>
          rw [hs] at h
          simp only [Except.map, Except.ok.injEq] at h
          subst h
          obtain ⟨hv, hitem, hmat, hnid, -⟩ := adjust_stock_ok_inv s ns r n out hs
          have hns : 0 ≤ ns := by
            have hv2 := (Bool.and_eq_true _ _).mp hv
            exact of_decide_eq_true hv2.1
          refine ⟨?_, ?_, ?_, ?_, ?_⟩
          · rw [hitem]
            show ns = s.item.current_stock + stepDelta s (MovementOp.adjustStock ns r n)
            simp only [stepDelta]
            omega
          · rw [hitem]; exact hns
          · rw [hitem]; exact hns
          · intro m hm; rw [hmat] at hm; exact hq m hm
          · intro m hm; rw [hmat] at hm; rw [hnid]; exact hid m hm
  | deductForOrderUsage q oid onum =>
      simp only [applyOp] at h
      cases hs : deduct_for_order_usage s q oid onum with
      | error e => rw [hs] at h; exact Except.noConfusion h
      | ok out =>
          rw [hs] at h
          simp only [Except.map, Except.ok.injEq] at h
          subst h
          obtain ⟨hv, hav, hitem, hmat, homq, homid, hnid, -⟩ :=
            deduct_ok_inv s q oid onum out hs
          have hq1 : (1 : Int) ≤ q := of_decide_eq_true hv
          refine ⟨?_, ?_, ?_, ?_, ?_⟩
          · rw [hitem]; rfl
          · rw [hitem]
            show 0 ≤ s.item.current_stock - q
            omega
          · rw [hitem]
            show 0 ≤ s.item.current_stock - q
            omega
          · intro m hm
            rw [hmat] at hm
            rcases List.mem_append.mp hm with hm2 | hm2
            · exact hq m hm2
            · rw [List.mem_singleton.mp hm2, homq]; exact hq1
          · intro m hm
            rw [hmat] at hm
            rw [hnid]
            rcases List.mem_append.mp hm with hm2 | hm2
            · exact Nat.lt_succ_of_lt (hid m hm2)
            · rw [List.mem_singleton.mp hm2, homid]; exact Nat.lt_succ_self _
  | restoreForOrderCancellation mid onum =>
      simp only [applyOp] at h
      cases hs : destroy_order_material s mid onum with
      | error e => rw [hs] at h; exact Except.noConfusion h
      | ok out =>
          rw [hs] at h
          simp only [Except.map, Except.ok.injEq] at h
          subst h
          obtain ⟨m, hm, hitem, hmat, hnid, -, -⟩ :=
            destroy_ok_inv s mid onum out hs
          have hmem : m ∈ s.materials := List.mem_of_find?_eq_some hm
          have hmq : (1 : Int) ≤ m.quantity := hq m hmem
          refine ⟨?_, ?_, ?_, ?_, ?_⟩
          · rw [hitem]
            show s.item.current_stock + m.quantity
              = s.item.current_stock + stepDelta s (MovementOp.restoreForOrderCancellation mid onum)
            simp only [stepDelta, hm]
          · rw [hitem]
            show 0 ≤ s.item.current_stock + m.quantity
            omega
          · rw [hitem]
            show 0 ≤ s.item.current_stock + m.quantity
            omega
          · intro x hx
            rw [hmat] at hx
            exact hq x (List.mem_of_mem_filter hx)
          · intro x hx
            rw [hmat] at hx
            rw [hnid]
            exact hid x (List.mem_of_mem_filter hx)

/-- Well-formedness is preserved along any sequence of Movement Engine
operations. -/
theorem runOps_wf (s : ItemState) (hwf : WF s) (ops : List MovementOp) :
    WF (runOps s ops) := by
  induction ops generalizing s with
  | nil => exact hwf
  | cons op rest ih =>
      unfold runOps
      cases h : applyOp s op with
      | ok s2 => exact ih s2 (applyOp_ok_balance s s2 op hwf h).2.2
      | error e => exact ih s hwf

end StitchDesk

namespace StitchDesk

/-- A deduction whose quantity passed validation but exceeds the current
balance returns `insufficientStock` carrying the available balance, and
produces no new state. -/
theorem deduct_insufficient (s : ItemState) (q : Int) (oid : Nat)
    (onum : String) (hq : quantityLineOk q = true)
    (hlt : s.item.current_stock < q) :
    deduct_for_order_usage s q oid onum
      = Except.error (StockError.insufficientStock s.item.current_stock) := by
  unfold deduct_for_order_usage
  simp [hq, hlt]

/-- C1: for every sequence of StockIn, AdjustStock, DeductForOrderUsage
and RestoreForOrderCancellation operations applied to one well-formed
item, the balance after each successful step equals the prior balance
plus that step's signed delta and is never negative; a deduction whose
quantity exceeds the current balance fails with `InsufficientStock` (and,
yielding no new state, performs no deduction). -/
theorem C1_stock_sequence_safety (s0 : ItemState) (hwf : WF s0)
    (ops : List MovementOp) :
    0 ≤ (runOps s0 ops).item.current_stock ∧
      (∀ op s2, applyOp (runOps s0 ops) op = Except.ok s2 →
        s2.item.current_stock
            = (runOps s0 ops).item.current_stock
                + stepDelta (runOps s0 ops) op ∧
          0 ≤ s2.item.current_stock) ∧
      (∀ q oid onum, (runOps s0 ops).item.current_stock < q →
        applyOp (runOps s0 ops) (MovementOp.deductForOrderUsage q oid onum)
          = Except.error (StockError.insufficientStock
              (runOps s0 ops).item.current_stock)) := by
  have hwf2 : WF (runOps s0 ops) := runOps_wf s0 hwf ops
  refine ⟨hwf2.1, ?_, ?_⟩
  · intro op s2 h
    have hb := applyOp_ok_balance _ s2 op hwf2 h
    exact ⟨hb.1, hb.2.1⟩
  · intro q oid onum hlt
    have h0 : 0 ≤ (runOps s0 ops).item.current_stock := hwf2.1
    have hq : quantityLineOk q = true := by
      apply decide_eq_true
      show (1 : Int) ≤ q
      omega
    simp only [applyOp, deduct_insufficient _ _ _ _ hq hlt, Except.map]

/-- Witness for C1 at a concrete state and operation sequence. -/
theorem C1_stock_sequence_safety_witness :
    WF exState ∧
      (0 ≤ (runOps exState exOps).item.current_stock ∧
        (∀ op s2, applyOp (runOps exState exOps) op = Except.ok s2 →
          s2.item.current_stock
              = (runOps exState exOps).item.current_stock
                  + stepDelta (runOps exState exOps) op ∧
            0 ≤ s2.item.current_stock) ∧
        (∀ q oid onum, (runOps exState exOps).item.current_stock < q →
          applyOp (runOps exState exOps)
              (MovementOp.deductForOrderUsage q oid onum)
            = Except.error (StockError.insufficientStock
                (runOps exState exOps).item.current_stock))) :=
  ⟨by decide, C1_stock_sequence_safety exState (by decide) exOps⟩

end StitchDesk

namespace StitchDesk

/-- Every successful Movement Engine step appends exactly one ledger
entry, and that entry satisfies the before/after arithmetic of its
transaction type. -/
theorem applyOp_ok_entry (s s2 : ItemState) (op : MovementOp)
    (h : applyOp s op = Except.ok s2) :
    ∃ e, s2.history = s.history ++ [e] ∧ entryConsistent e = true := by
  cases op with
  | stockIn q sup n =>
      simp only [applyOp] at h
      cases hs : stock_in s q sup n with
      | error e => rw [hs] at h; exact Except.noConfusion h
      | ok out =>
          rw [hs] at h
          simp only [Except.map, Except.ok.injEq] at h
          subst h
          obtain ⟨-, -, -, -, e, hh, htype, hq, hb, ha⟩ :=
            stock_in_ok_inv s q sup n out hs
          refine ⟨e, hh, ?_⟩
          simp only [entryConsistent, htype, hq, hb, ha, beq_iff_eq]
          omega
  | adjustStock ns r n =>
      simp only [applyOp] at h
      cases hs : adjust_stock s ns r n with
      | error e => rw [hs] at h; exact Except.noConfusion h
      | ok out =>
          rw [hs] at h
          simp only [Except.map, Except.ok.injEq] at h
          subst h
          obtain ⟨-, -, -, -, e, hh, htype, hq, hb, ha⟩ :=
            adjust_stock_ok_inv s ns r n out hs
          refine ⟨e, hh, ?_⟩
          simp only [entryConsistent, htype, hq, hb, ha, beq_iff_eq]
  | deductForOrderUsage q oid onum =>
      simp only [applyOp] at h
      cases hs : deduct_for_order_usage s q oid onum with
      | error e => rw [hs] at h; exact Except.noConfusion h
      | ok out =>
          rw [hs] at h
          simp only [Except.map, Except.ok.injEq] at h
          subst h
          obtain ⟨-, -, -, -, -, -, -, e, hh, htype, hq, hb, ha⟩ :=
            deduct_ok_inv s q oid onum out hs
          refine ⟨e, hh, ?_⟩
          simp only [entryConsistent, htype, hq, hb, ha, beq_iff_eq]
          omega
  | restoreForOrderCancellation mid onum =>
      simp only [applyOp] at h
      cases hs : destroy_order_material s mid onum with
      | error e => rw [hs] at h; exact Except.noConfusion h
      | ok out =>
          rw [hs] at h
          simp only [Except.map, Except.ok.injEq] at h
          subst h
          obtain ⟨m, hm, -, -, -, -, e, hh, htype, hq, hb, ha⟩ :=
            destroy_ok_inv s mid onum out hs
          refine ⟨e, hh, ?_⟩
          simp only [entryConsistent, htype, hq, hb, ha, beq_iff_eq]
          omega

/-- C2: every StockHistory entry created by a core operation satisfies
the before/after arithmetic: `stock_after - stock_before` equals
`+quantity` for IN entries and `-quantity` for OUT entries, and
`abs(stock_after - stock_before)` equals `quantity` for ADJUSTMENT
entries; this also covers the INITIAL_STOCK entry written at item
creation. -/
theorem C2_entry_arithmetic (s : ItemState) (op : MovementOp)
    (s2 : ItemState) (h : applyOp s op = Except.ok s2) :
    (∃ e, s2.history = s.history ++ [e] ∧ entryConsistent e = true) ∧
      (∀ item hid, ∀ e ∈ perform_create_item item hid,
        entryConsistent e = true) := by
  refine ⟨applyOp_ok_entry s s2 op h, ?_⟩
  intro item hid e he
  unfold perform_create_item at he
  split at he
  · rw [List.mem_singleton.mp he]
    simp only [entryConsistent, beq_iff_eq]
    omega
  · cases he

/-- Witness for C2 at a concrete stock-in. -/
theorem C2_entry_arithmetic_witness :
    applyOp exState (MovementOp.stockIn 200 "Acme" "")
        = Except.ok exStockInResult ∧
      ((∃ e, exStockInResult.history = exState.history ++ [e] ∧
          entryConsistent e = true) ∧
        (∀ item hid, ∀ e ∈ perform_create_item item hid,
          entryConsistent e = true)) :=
  ⟨rfl, C2_entry_arithmetic exState (MovementOp.stockIn 200 "Acme" "")
    exStockInResult rfl⟩

end StitchDesk

namespace StitchDesk

/-- C7 counterexample: adjusting a well-formed item to its current balance
succeeds and writes a ledger entry whose `quantity` is 0, so the claim
that every entry has strictly positive quantity is false on the code. -/
theorem C7_counterexample_zero_quantity :
    ∃ s2 r, adjust_stock exState 500 Reason.MANUAL_ADJUSTMENT ""
        = Except.ok (s2, r) ∧
      s2.history.map StockHistory.quantity = [0] ∧
      exState.item.current_stock = 500 :=
  ⟨_, _, rfl, by decide, by decide⟩

/-- C7 amended: every ledger entry written by a successful core operation
has non-negative quantity, and every IN or OUT entry has strictly
positive quantity; only an ADJUSTMENT entry may record quantity 0 (when
the requested balance equals the current one).  The INITIAL_STOCK entry
written at item creation is also strictly positive. -/
theorem C7_amended_quantity_sign (s : ItemState) (op : MovementOp)
    (s2 : ItemState) (hwf : WF s) (h : applyOp s op = Except.ok s2) :
    (∃ e, s2.history = s.history ++ [e] ∧ 0 ≤ e.quantity ∧
      ((e.transaction_type = TransactionType.tIN ∨
          e.transaction_type = TransactionType.tOUT) → 0 < e.quantity)) ∧
      (∀ item hid, ∀ e ∈ perform_create_item item hid, 0 < e.quantity) := by
  obtain ⟨h0, hmq, hmid⟩ := hwf
  constructor
  · cases op with
    | stockIn q sup n =>
        simp only [applyOp] at h
        cases hs : stock_in s q sup n with
        | error e => rw [hs] at h; exact Except.noConfusion h
        | ok out =>
            rw [hs] at h
            simp only [Except.map, Except.ok.injEq] at h
            subst h
            obtain ⟨hv, -, -, -, e, hh, htype, hq, -, -⟩ :=
              stock_in_ok_inv s q sup n out hs
            have hq1 : (1 : Int) ≤ q := of_decide_eq_true hv
            exact ⟨e, hh, by omega, fun _ => by omega⟩
    | adjustStock ns r n =>
        simp only [applyOp] at h
        cases hs : adjust_stock s ns r n with
        | error e => rw [hs] at h; exact Except.noConfusion h
        | ok out =>
            rw [hs] at h
            simp only [Except.map, Except.ok.injEq] at h
            subst h
            obtain ⟨-, -, -, -, e, hh, htype, hq, -, -⟩ :=
              adjust_stock_ok_inv s ns r n out hs
            refine ⟨e, hh, ?_, ?_⟩
            · rw [hq]
              unfold absDec
              split <;> omega
            · intro hdisj
              rcases hdisj with ht | ht <;> rw [htype] at ht <;> cases ht
    | deductForOrderUsage q oid onum =>
        simp only [applyOp] at h
        cases hs : deduct_for_order_usage s q oid onum with
        | error e => rw [hs] at h; exact Except.noConfusion h
        | ok out =>
            rw [hs] at h
            simp only [Except.map, Except.ok.injEq] at h
            subst h
            obtain ⟨hv, -, -, -, -, -, -, e, hh, htype, hq, -, -⟩ :=
              deduct_ok_inv s q oid onum out hs
            have hq1 : (1 : Int) ≤ q := of_decide_eq_true hv
            exact ⟨e, hh, by omega, fun _ => by omega⟩
    | restoreForOrderCancellation mid onum =>
        simp only [applyOp] at h
        cases hs : destroy_order_material s mid onum with
        | error e => rw [hs] at h; exact Except.noConfusion h
        | ok out =>
            rw [hs] at h
            simp only [Except.map, Except.ok.injEq] at h
            subst h
            obtain ⟨m, hm, -, -, -, -, e, hh, htype, hq, -, -⟩ :=
              destroy_ok_inv s mid onum out hs
            have hmem : m ∈ s.materials := List.mem_of_find?_eq_some hm
            have hq1 : (1 : Int) ≤ m.quantity := hmq m hmem
            exact ⟨e, hh, by omega, fun _ => by omega⟩
  · intro item hid e he
    unfold perform_create_item at he
    split at he
    · rw [List.mem_singleton.mp he]
      simpa using (by assumption : 0 < item.current_stock)
    · cases he

/-- Witness for the amended C7 at a concrete stock-in. -/
theorem C7_amended_quantity_sign_witness :
    WF exState ∧
      applyOp exState (MovementOp.stockIn 200 "Acme" "")
          = Except.ok exStockInResult ∧
      ((∃ e, exStockInResult.history = exState.history ++ [e] ∧
          0 ≤ e.quantity ∧
          ((e.transaction_type = TransactionType.tIN ∨
              e.transaction_type = TransactionType.tOUT) → 0 < e.quantity)) ∧
        (∀ item hid, ∀ e ∈ perform_create_item item hid, 0 < e.quantity)) :=
  ⟨by decide, rfl, C7_amended_quantity_sign exState
    (MovementOp.stockIn 200 "Acme" "") exStockInResult (by decide) rfl⟩

end StitchDesk

namespace StitchDesk

/-- Auxiliary: `find?` skips an initial segment on which the predicate is false. -/
theorem find?_append_of_none {α : Type} (p : α → Bool) (l1 l2 : List α)
    (h : ∀ x ∈ l1, p x = false) : (l1 ++ l2).find? p = l2.find? p := by
  induction l1 with
  | nil => rfl
  | cons a t ih =>
      simp only [List.cons_append, List.find?]
      rw [h a (by simp)]
      exact ih (fun x hx => h x (by simp [hx]))

/-- C3: on a well-formed state, a successful order-usage deduction of a
valid quantity followed by removal of the binding it created restores
`current_stock` to its original value, restores the binding list, and
appends exactly two new ledger entries, leaving every existing entry in
place unchanged. -/
theorem C3_deduct_restore_roundtrip (s : ItemState) (hwf : WF s) (q : Int)
    (oid : Nat) (onum onum2 : String) (hq : quantityLineOk q = true)
    (hav : q ≤ s.item.current_stock) :
    ∃ s1 om s2 resp,
      deduct_for_order_usage s q oid onum = Except.ok (s1, om) ∧
      destroy_order_material s1 om.id onum2 = Except.ok (s2, resp) ∧
      s2.item.current_stock = s.item.current_stock ∧
      s2.materials = s.materials ∧
      ∃ e1 e2, s2.history = s.history ++ [e1, e2] := by
  obtain ⟨h0, hmq, hmid⟩ := hwf
  have hnlt : ¬ s.item.current_stock < q := not_lt.mpr hav
  cases hd : deduct_for_order_usage s q oid onum with
  | error e =>
      exfalso
      unfold deduct_for_order_usage at hd
      simp [hq, hnlt] at hd
  | ok out =>
      obtain ⟨-, -, hitem1, hmat1, homq, homid, -, e1, hh1, -, -, -, -⟩ :=
        deduct_ok_inv s q oid onum out hd
      have hfind : out.1.materials.find? (fun x => x.id == out.2.id)
          = some out.2 := by
        rw [hmat1]
        rw [find?_append_of_none]
        · simp
        · intro x hx
          rw [homid]
          simpa using Nat.ne_of_lt (hmid x hx)
      cases hdd : destroy_order_material out.1 out.2.id onum2 with
      | error e =>
          exfalso
          unfold destroy_order_material at hdd
          rw [hfind] at hdd
          exact Except.noConfusion hdd
      | ok out2 =>
          obtain ⟨m, hm, hitem2, hmat2, -, -, e2, hh2, -, hq2, -, -⟩ :=
            destroy_ok_inv out.1 out.2.id onum2 out2 hdd
          rw [hfind] at hm
          injection hm with hmeq
          subst hmeq
          refine ⟨out.1, out.2, out2.1, out2.2,
            by simp [hd],
            by simpa using hdd,
            ?_, ?_, ?_⟩
          · rw [hitem2]
            show out.1.item.current_stock + out.2.quantity
              = s.item.current_stock
            rw [hitem1]
            show s.item.current_stock - q + out.2.quantity
              = s.item.current_stock
            rw [homq]
            omega
          · rw [hmat2, hmat1, List.filter_append]
            have hkeep : s.materials.filter (fun x => x.id != out.2.id)
                = s.materials := by
              apply List.filter_eq_self.mpr
              intro x hx
              rw [homid]
              simpa using Nat.ne_of_lt (hmid x hx)
            have hdrop : [out.2].filter (fun x => x.id != out.2.id) = [] := by
              simp [List.filter]
            rw [hkeep, hdrop, List.append_nil]
          · exact ⟨e1, e2, by rw [hh2, hh1]; simp⟩

/-- Witness for C3 at a concrete deduction of 3.00 from balance 5.00. -/
theorem C3_deduct_restore_roundtrip_witness :
    WF exState ∧ quantityLineOk 300 = true ∧
      300 ≤ exState.item.current_stock ∧
      (∃ s1 om s2 resp,
        deduct_for_order_usage exState 300 1 "ORD-1" = Except.ok (s1, om) ∧
        destroy_order_material s1 om.id "ORD-1" = Except.ok (s2, resp) ∧
        s2.item.current_stock = exState.item.current_stock ∧
        s2.materials = exState.materials ∧
        ∃ e1 e2, s2.history = exState.history ++ [e1, e2]) :=
  ⟨by decide, by decide, by decide,
    C3_deduct_restore_roundtrip exState (by decide) 300 1 "ORD-1" "ORD-1"
      (by decide) (by decide)⟩

end StitchDesk

namespace StitchDesk

/-- C6 counterexample: removing a binding (the
RestoreForOrderCancellation operation) responds with HTTP 204 and no
body at all, so it returns neither the updated balance nor the id of the
ORDER_CANCELLED ledger entry it created; and a successful stock-in
response body consists of exactly a `message` and a `current_stock`
field, with no field for the created ledger entry id. -/
theorem C6_counterexample_no_entry_id :
    (∃ s2, destroy_order_material exStateWithMaterial 1 "ORD-1"
        = Except.ok (s2, { status := 204, body := none })) ∧
      (∃ s2 r, stock_in exState 200 "Acme" "" = Except.ok (s2, r) ∧
        r.body.map (List.map Prod.fst)
          = some ["message", "current_stock"]) :=
  ⟨⟨_, rfl⟩, ⟨_, _, rfl, by decide⟩⟩

/-- C6 amended: StockIn and AdjustStock respond with status 200 and a
body consisting of exactly a message and the updated `current_stock`;
RestoreForOrderCancellation (binding removal) responds 204 with no body;
no operation returns the id of the StockHistory entry it created. -/
theorem C6_amended_operation_responses (s : ItemState) :
    (∀ q sup n s2 r, stock_in s q sup n = Except.ok (s2, r) →
      r.status = 200 ∧
        ∃ msg, r.body = some [("message", RespVal.str msg),
          ("current_stock", RespVal.num s2.item.current_stock)]) ∧
      (∀ ns reason notes s2 r,
        adjust_stock s ns reason notes = Except.ok (s2, r) →
        r.status = 200 ∧
          ∃ msg, r.body = some [("message", RespVal.str msg),
            ("current_stock", RespVal.num s2.item.current_stock)]) ∧
      (∀ mid onum s2 r,
        destroy_order_material s mid onum = Except.ok (s2, r) →
        r = { status := 204, body := none }) := by
  refine ⟨?_, ?_, ?_⟩
  · intro q sup n s2 r h
    unfold stock_in at h
    split at h
    · simp only [Except.ok.injEq, Prod.mk.injEq] at h
      obtain ⟨hs2, hr⟩ := h
      subst hs2
      subst hr
      exact ⟨rfl, _, rfl⟩
    · exact Except.noConfusion h
  · intro ns reason notes s2 r h
    unfold adjust_stock at h
    split at h
    · simp only [Except.ok.injEq, Prod.mk.injEq] at h
      obtain ⟨hs2, hr⟩ := h
      subst hs2
      subst hr
      exact ⟨rfl, _, rfl⟩
    · exact Except.noConfusion h
  · intro mid onum s2 r h
    unfold destroy_order_material at h
    split at h
    · exact Except.noConfusion h
    · simp only [Except.ok.injEq, Prod.mk.injEq] at h
      exact h.2.symm

/-- Witness for the amended C6 at the concrete stock-in. -/
theorem C6_amended_operation_responses_witness :
    stock_in exState 200 "Acme" ""
        = Except.ok (exStockInResult, exStockInResp) ∧
      (exStockInResp.status = 200 ∧
        ∃ msg, exStockInResp.body = some [("message", RespVal.str msg),
          ("current_stock",
            RespVal.num exStockInResult.item.current_stock)]) :=
  ⟨rfl, (C6_amended_operation_responses exState).1 200 "Acme" ""
    exStockInResult exStockInResp rfl⟩

end StitchDesk

namespace StitchDesk

/-- C8 counterexample: soft-deleting the example item (which has a
binding and a ledger row) keeps every binding and ledger row in the
store, yet afterwards the per-item history endpoint resolves the item
through the `is_deleted=False` queryset and returns NotFound, whereas
before the deletion the history was retrievable; so the claim that the
item remains resolvable for history queries is false on the code. -/
theorem C8_counterexample_history_unreachable :
    (item_destroy exStore exUser 1).2.status = 204 ∧
      (item_destroy exStore exUser 1).1.history = exStore.history ∧
      (item_destroy exStore exUser 1).1.materials = exStore.materials ∧
      item_history exStore exUser 1 = Except.ok [exHistEntry] ∧
      item_history (item_destroy exStore exUser 1).1 exUser 1
        = Except.error StockError.notFound :=
  ⟨by decide, by decide, by decide, rfl, rfl⟩

/-- C8 amended: soft-deleting an item never cascade-deletes its bindings
or ledger rows (history, materials and orders are untouched), and
afterwards the item is excluded from active-item listings; but the item
is then no longer resolvable through the item endpoints, so its per-item
history endpoint returns NotFound rather than remaining retrievable. -/
theorem C8_amended_soft_delete (st : Store) (u : User) (iid : Nat)
    (it : InventoryItem) (hget : items_get_object st u iid = some it) :
    (item_destroy st u iid).1.history = st.history ∧
      (item_destroy st u iid).1.materials = st.materials ∧
      (item_destroy st u iid).1.orders = st.orders ∧
      (∀ x ∈ items_get_queryset (item_destroy st u iid).1 u, x.id ≠ iid) ∧
      item_history (item_destroy st u iid).1 u iid
        = Except.error StockError.notFound := by
  have hid : it.id = iid := by
    have hp := List.find?_some hget
    simpa using hp
  have hdestroy : item_destroy st u iid
      = ({ st with
            items := st.items.map (fun x =>
              if x.id == it.id then { x with is_deleted := true } else x) },
          { status := 204, body := none }) := by
    unfold item_destroy
    rw [hget]
  have hnotin : ∀ x ∈ items_get_queryset (item_destroy st u iid).1 u,
      x.id ≠ iid := by
    intro x hx hxid
    rw [hdestroy] at hx
    unfold items_get_queryset at hx
    obtain ⟨hxmem, hxpred⟩ := List.mem_filter.mp hx
    obtain ⟨y, hymem, hyx⟩ := List.mem_map.mp hxmem
    by_cases hy : (y.id == it.id) = true
    · rw [if_pos hy] at hyx
      have : x.is_deleted = true := by rw [← hyx]
      simp [this] at hxpred
    · rw [if_neg hy] at hyx
      apply hy
      rw [hyx, hxid, hid]
      exact beq_self_eq_true iid
  refine ⟨by rw [hdestroy], by rw [hdestroy], by rw [hdestroy], hnotin, ?_⟩
  have hnone : items_get_object (item_destroy st u iid).1 u iid = none := by
    unfold items_get_object
    apply List.find?_eq_none.mpr
    intro x hx
    simpa using hnotin x hx
  unfold item_history
  rw [hnone]

/-- Witness for the amended C8 at the concrete store. -/
theorem C8_amended_soft_delete_witness :
    items_get_object exStore exUser 1 = some exItem ∧
      ((item_destroy exStore exUser 1).1.history = exStore.history ∧
        (item_destroy exStore exUser 1).1.materials = exStore.materials ∧
        (item_destroy exStore exUser 1).1.orders = exStore.orders ∧
        (∀ x ∈ items_get_queryset (item_destroy exStore exUser 1).1 exUser,
          x.id ≠ 1) ∧
        item_history (item_destroy exStore exUser 1).1 exUser 1
          = Except.error StockError.notFound) :=
  ⟨by decide, C8_amended_soft_delete exStore exUser 1 exItem (by decide)⟩

end StitchDesk

namespace StitchDesk

/-- C9 counterexample: the example item belongs to shop 1, and user 2
also belongs to shop 1, yet the item lookup scoped by
`user=request.user` returns none (NotFound) for user 2; so the claim
that entities of the caller's own shop are in scope is false on the
code, which scopes by user id rather than shop id. -/
theorem C9_counterexample_same_shop_not_in_scope :
    exItem ∈ exStore.items ∧
      exItem.shopId = exUser2.shopId ∧
      exItem.is_deleted = false ∧
      items_get_object exStore exUser2 exItem.id = none := by
  decide

/-- C9 amended: every inventory endpoint is scoped by the calling user's
id (not the shop id): an id whose owners are all different users
resolves to none — indistinguishable from a missing id — so cross-tenant
access yields NotFound and leaks nothing; an item owned by the caller and
not soft-deleted is in scope; a bulk add against an order of a different
user returns the order-not-found result with the store unchanged; and
every binding listed by the order-materials queryset belongs to an order
of the caller. -/
theorem C9_amended_user_scoping :
    (∀ st u iid, (∀ it ∈ st.items, it.id = iid → it.userId ≠ u.id) →
      items_get_object st u iid = none) ∧
      (∀ st u it, it ∈ st.items → it.userId = u.id → it.is_deleted = false →
        ∃ it2, items_get_object st u it.id = some it2 ∧
          it2.userId = u.id ∧ it2.id = it.id ∧ it2.is_deleted = false) ∧
      (∀ st u oid lines, (∀ o ∈ st.orders, o.id = oid → o.userId ≠ u.id) →
        add_order_materials st u oid lines = (st, BulkResult.orderNotFound)) ∧
      (∀ st u m, m ∈ order_materials_queryset st u none →
        ∃ o, st.orders.find? (fun o => o.id == m.order) = some o ∧
          o.userId = u.id) := by
  refine ⟨?_, ?_, ?_, ?_⟩
  · intro st u iid hforeign
    unfold items_get_object
    apply List.find?_eq_none.mpr
    intro x hx
    obtain ⟨hxmem, hxpred⟩ := List.mem_filter.mp hx
    simp only [Bool.and_eq_true, beq_iff_eq, Bool.not_eq_true'] at hxpred
    simp only [beq_iff_eq]
    intro hxid
    exact hforeign x hxmem hxid hxpred.1
  · intro st u it hmem huser hdel
    unfold items_get_object
    cases hf : (items_get_queryset st u).find? (fun x => x.id == it.id) with
    | none =>
        exfalso
        have hin : it ∈ items_get_queryset st u := by
          apply List.mem_filter.mpr
          refine ⟨hmem, ?_⟩
          simp [huser, hdel]
        have := List.find?_eq_none.mp hf it hin
        simp at this
    | some it2 =>
        have hpred := List.find?_some hf
        have hmem2 := List.mem_of_find?_eq_some hf
        obtain ⟨-, hpred2⟩ := List.mem_filter.mp hmem2
        simp only [Bool.and_eq_true, beq_iff_eq, Bool.not_eq_true'] at hpred2
        refine ⟨it2, rfl, hpred2.1, ?_, hpred2.2⟩
        simpa using hpred
  · intro st u oid lines hforeign
    unfold add_order_materials
    have hnone : st.orders.find? (fun o =>
        o.id == oid && o.userId == u.id && !o.is_deleted) = none := by
      apply List.find?_eq_none.mpr
      intro o ho
      simp only [Bool.and_eq_true, beq_iff_eq, Bool.not_eq_true',
        not_and]
      intro hoid
      exact absurd hoid.2 (hforeign o ho hoid.1)
    rw [hnone]
  · intro st u m hm
    unfold order_materials_queryset at hm
    obtain ⟨-, hpred⟩ := List.mem_filter.mp hm
    cases hf : st.orders.find? (fun o => o.id == m.order) with
    | none => rw [hf] at hpred; cases hpred
    | some o =>
        rw [hf] at hpred
        simp only [Option.any_some, beq_iff_eq] at hpred
        exact ⟨o, rfl, hpred⟩

/-- Witness for the amended C9: the example item is in scope for its
owner. -/
theorem C9_amended_user_scoping_witness :
    exItem ∈ exStore.items ∧ exItem.userId = exUser.id ∧
      exItem.is_deleted = false ∧
      (∃ it2, items_get_object exStore exUser exItem.id = some it2 ∧
        it2.userId = exUser.id ∧ it2.id = exItem.id ∧
        it2.is_deleted = false) :=
  ⟨by decide, by decide, by decide,
    C9_amended_user_scoping.2.1 exStore exUser exItem
      (by decide) (by decide) (by decide)⟩

end StitchDesk

namespace StitchDesk

/-- Auxiliary: `find?` commutes with a map that does not change the
predicate's verdict. -/
theorem find?_map_eq {α : Type} (f : α → α) (p : α → Bool) (l : List α)
    (hp : ∀ x, p (f x) = p x) :
    (l.map f).find? p = (l.find? p).map f := by
  induction l with
  | nil => rfl
  | cons a t ih =>
      simp only [List.map_cons, List.find?]
      rw [hp a]
      cases hpa : p a
      · simpa using ih
      · rfl

/-- Writing a new balance for one item id changes the item lookup only by
updating that balance on the looked-up row. -/
theorem findItem_setItemStock (items : List InventoryItem) (key : Nat)
    (ns : Int) (u : User) (iid : Nat) :
    (setItemStock items key ns).find?
        (fun it => it.id == iid && it.userId == u.id && !it.is_deleted)
      = (items.find?
          (fun it => it.id == iid && it.userId == u.id && !it.is_deleted)).map
          (fun it =>
            if it.id == key then { it with current_stock := ns } else it) := by
  unfold setItemStock
  apply find?_map_eq
  intro x
  by_cases hx : (x.id == key) = true
  · rw [if_pos hx]
  · rw [if_neg hx]

/-- A line whose item id does not resolve collects an item-not-found
error. -/
theorem processLine_err_none (u : User) (order : Order) (st : Store)
    (line : MaterialLine)
    (h : findItem st u line.inventory_item = none) :
    processLine u order st line
      = LineResult.lineError (toString line.inventory_item, "Item not found") := by
  unfold processLine
  rw [h]

/-- A line requesting more than the available balance collects an
insufficient-stock error carrying the available balance. -/
theorem processLine_err_insufficient (u : User) (order : Order) (st : Store)
    (line : MaterialLine) (item : InventoryItem)
    (h : findItem st u line.inventory_item = some item)
    (hlt : item.current_stock < line.quantity) :
    processLine u order st line
      = LineResult.lineError
          (item.name, insufficientMsg item.current_stock item.unit) := by
  unfold processLine
  simp only [h]
  rw [if_pos hlt]

/-- A line whose item resolves with sufficient balance succeeds. -/
theorem processLine_ok_of (u : User) (order : Order) (st : Store)
    (line : MaterialLine) (item : InventoryItem)
    (h : findItem st u line.inventory_item = some item)
    (hge : ¬ item.current_stock < line.quantity) :
    ∃ st1 om, processLine u order st line = LineResult.lineOk st1 om := by
  unfold processLine
  simp only [h]
  rw [if_neg hge]
  exact ⟨_, _, rfl⟩

/-- Inversion for a successful bulk line: the item resolved with
sufficient balance, the binding carries the line quantity and a fresh id,
exactly that item's balance is decremented, and one {OUT, ORDER_USAGE}
ledger row linking order and binding is appended. -/
theorem processLine_ok_inv (u : User) (order : Order) (st : Store)
    (line : MaterialLine) (st1 : Store) (om : OrderMaterial)
    (h : processLine u order st line = LineResult.lineOk st1 om) :
    ∃ item, findItem st u line.inventory_item = some item ∧
      ¬ item.current_stock < line.quantity ∧
      om.id = st.nextMaterialId ∧ om.order = order.id ∧
      om.inventory_item = item.id ∧ om.quantity = line.quantity ∧
      st1.items = setItemStock st.items item.id
        (item.current_stock - line.quantity) ∧
      st1.materials = st.materials ++ [om] ∧
      st1.orders = st.orders ∧
      st1.nextMaterialId = st.nextMaterialId + 1 ∧
      ∃ en, st1.history = st.history ++ [en] ∧
        en.order_material = some om.id ∧
        en.transaction_type = TransactionType.tOUT ∧
        en.reason = Reason.ORDER_USAGE ∧
        en.quantity = line.quantity ∧
        en.stock_before = item.current_stock ∧
        en.stock_after = item.current_stock - line.quantity ∧
        en.order = some order.id := by
  unfold processLine at h
  split at h
  · cases h
  · next item heq =>
      split at h
      · cases h
      · injection h with h1 h2
        subst h1
        subst h2
        exact ⟨item, heq, by assumption, rfl, rfl, rfl, rfl, rfl, rfl, rfl,
          rfl, _, rfl, rfl, rfl, rfl, rfl, rfl, rfl, rfl⟩

/-- Unfolding equation of `bulkFold` for an erroring head line. -/
theorem bulkFold_cons_err (u : User) (order : Order) (st : Store)
    (line : MaterialLine) (rest : List MaterialLine) (err : LineErr)
    (h : processLine u order st line = LineResult.lineError err) :
    bulkFold u order st (line :: rest)
      = ((bulkFold u order st rest).1, (bulkFold u order st rest).2.1,
         err :: (bulkFold u order st rest).2.2) := by
  simp only [bulkFold, h]

/-- Unfolding equation of `bulkFold` for a succeeding head line. -/
theorem bulkFold_cons_ok (u : User) (order : Order) (st st1 : Store)
    (line : MaterialLine) (rest : List MaterialLine) (om : OrderMaterial)
    (h : processLine u order st line = LineResult.lineOk st1 om) :
    bulkFold u order st (line :: rest)
      = ((bulkFold u order st1 rest).1,
         om :: (bulkFold u order st1 rest).2.1,
         (bulkFold u order st1 rest).2.2) := by
  simp only [bulkFold, h]

end StitchDesk

namespace StitchDesk

/-- `bulkFold` over a concatenation threads the store and concatenates
the collected bindings and errors. -/
theorem bulkFold_append (u : User) (order : Order) (l1 l2 : List MaterialLine) :
    ∀ st : Store,
      bulkFold u order st (l1 ++ l2)
        = ((bulkFold u order (bulkFold u order st l1).1 l2).1,
           (bulkFold u order st l1).2.1
             ++ (bulkFold u order (bulkFold u order st l1).1 l2).2.1,
           (bulkFold u order st l1).2.2
             ++ (bulkFold u order (bulkFold u order st l1).1 l2).2.2) := by
  induction l1 with
  | nil =>
      intro st
      simp only [List.nil_append, bulkFold]
  | cons line rest ih =>
      intro st
      rw [List.cons_append]
      cases hp : processLine u order st line with
      | lineError err =>
          rw [bulkFold_cons_err u order st line (rest ++ l2) err hp,
            bulkFold_cons_err u order st line rest err hp, ih st]
          simp
      | lineOk st1 om =>
          rw [bulkFold_cons_ok u order st st1 line (rest ++ l2) om hp,
            bulkFold_cons_ok u order st st1 line rest om hp, ih st1]
          simp

/-- A successful bulk line never makes a previously unresolvable item id
resolvable: it only rewrites balances of existing rows. -/
theorem findItem_none_preserved (u : User) (order : Order) (st : Store)
    (line : MaterialLine) (st1 : Store) (om : OrderMaterial) (iid : Nat)
    (h : processLine u order st line = LineResult.lineOk st1 om)
    (hn : findItem st u iid = none) : findItem st1 u iid = none := by
  obtain ⟨item, -, -, -, -, -, -, hitems, -, -, -, -⟩ :=
    processLine_ok_inv u order st line st1 om h
  unfold findItem at hn ⊢
  rw [hitems, findItem_setItemStock, hn]
  rfl

/-- An unresolvable item id stays unresolvable along the whole bulk
loop. -/
theorem bulkFold_none_preserved (u : User) (order : Order)
    (lines : List MaterialLine) (iid : Nat) :
    ∀ st : Store, findItem st u iid = none →
      findItem (bulkFold u order st lines).1 u iid = none := by
  induction lines with
  | nil => intro st hn; exact hn
  | cons line rest ih =>
      intro st hn
      cases hp : processLine u order st line with
      | lineError err =>
          rw [bulkFold_cons_err u order st line rest err hp]
          exact ih st hn
      | lineOk st1 om =>
          rw [bulkFold_cons_ok u order st st1 line rest om hp]
          exact ih st1 (findItem_none_preserved u order st line st1 om iid hp hn)

/-- The bulk loop invariant: bindings plus errors account for every line;
exactly the successful lines' bindings are committed; if nothing was
created the store is untouched; and the loop appends one {OUT,
ORDER_USAGE} ledger row per created binding, linked to it and to the
order, mutating no existing row. -/
theorem bulkFold_spec (u : User) (order : Order)
    (lines : List MaterialLine) :
    ∀ st : Store,
      (bulkFold u order st lines).2.1.length
          + (bulkFold u order st lines).2.2.length = lines.length ∧
      (bulkFold u order st lines).1.materials
          = st.materials ++ (bulkFold u order st lines).2.1 ∧
      ((bulkFold u order st lines).2.1 = [] →
        (bulkFold u order st lines).1 = st) ∧
      ∃ newE, (bulkFold u order st lines).1.history = st.history ++ newE ∧
        newE.length = (bulkFold u order st lines).2.1.length ∧
        ∀ om ∈ (bulkFold u order st lines).2.1, ∃ en ∈ newE,
          en.order_material = some om.id ∧
          en.transaction_type = TransactionType.tOUT ∧
          en.reason = Reason.ORDER_USAGE ∧
          en.quantity = om.quantity ∧
          en.order = some order.id := by
  induction lines with
  | nil =>
      intro st
      exact ⟨rfl, by simp [bulkFold], fun _ => rfl,
        [], by simp [bulkFold], rfl, by simp [bulkFold]⟩
  | cons line rest ih =>
      intro st
      cases hp : processLine u order st line with
      | lineError err =>
          rw [bulkFold_cons_err u order st line rest err hp]
          obtain ⟨hlen, hmat, hempty, newE, hhist, hnlen, hmem⟩ := ih st
          refine ⟨?_, hmat, hempty, newE, hhist, hnlen, hmem⟩
          simp only [List.length_cons]
          omega
      | lineOk st1 om =>
          rw [bulkFold_cons_ok u order st st1 line rest om hp]
          obtain ⟨item, -, -, -, -, -, homq, -, hmat1, -, -, en, hh1, hen⟩ :=
            processLine_ok_inv u order st line st1 om hp
          obtain ⟨hlen, hmat, hempty, newE, hhist, hnlen, hmem⟩ := ih st1
          refine ⟨?_, ?_, ?_, en :: newE, ?_, ?_, ?_⟩
          · simp only [List.length_cons]
            omega
          · rw [hmat, hmat1, List.append_assoc]
            rfl
          · intro hc
            exact absurd hc (List.cons_ne_nil _ _)
          · rw [hhist, hh1, List.append_assoc]
            rfl
          · simp only [List.length_cons, hnlen]
          · intro om2 hom2
            rcases List.mem_cons.mp hom2 with hom2 | hom2
            · subst hom2
              exact ⟨en, List.mem_cons_self _ _,
                hen.1, hen.2.1, hen.2.2.1, by rw [hen.2.2.2.1, homq],
                hen.2.2.2.2.2.2⟩
            · obtain ⟨en2, hen2mem, hen2⟩ := hmem om2 hom2
              exact ⟨en2, List.mem_cons_of_mem _ hen2mem, hen2⟩

end StitchDesk

namespace StitchDesk

/-- C4: under a resolved order and a validated payload, the bulk add has
mixed-outcome semantics: if every line failed (and there was at least
one line) the call returns the failure result with one error per line and
the store is unchanged (nothing committed); if at least one line
succeeded the call returns the created bindings together with the
per-line errors, exactly the successful lines are committed (bindings
appended, one matching {OUT, ORDER_USAGE} ledger row per binding linked
to it and to the order, nothing else touched); and a line whose item id
is missing or soft-deleted only contributes its own error: dropping it
leaves the final store and created bindings identical. -/
theorem C4_bulk_mixed_outcome (st st2 : Store) (u : User) (oid : Nat)
    (lines : List MaterialLine) (order : Order)
    (created : List OrderMaterial) (errs : List LineErr)
    (horder : st.orders.find? (fun o =>
      o.id == oid && o.userId == u.id && !o.is_deleted) = some order)
    (hvalid : lines.all (fun l => quantityLineOk l.quantity) = true)
    (hbf : bulkFold u order st lines = (st2, created, errs)) :
    (created = [] → lines ≠ [] →
      add_order_materials st u oid lines = (st, BulkResult.failure errs) ∧
        errs.length = lines.length) ∧
      (created ≠ [] →
        add_order_materials st u oid lines
            = (st2, BulkResult.success created errs) ∧
          st2.materials = st.materials ++ created ∧
          created.length + errs.length = lines.length ∧
          ∃ newE, st2.history = st.history ++ newE ∧
            newE.length = created.length ∧
            ∀ om ∈ created, ∃ en ∈ newE,
              en.order_material = some om.id ∧
              en.transaction_type = TransactionType.tOUT ∧
              en.reason = Reason.ORDER_USAGE ∧
              en.quantity = om.quantity ∧
              en.order = some order.id) ∧
      (∀ pre bad post, lines = pre ++ bad :: post →
        findItem st u bad.inventory_item = none →
        ∃ stp cp ep c2 e2,
          bulkFold u order st pre = (stp, cp, ep) ∧
          bulkFold u order st (pre ++ post) = (st2, created, ep ++ e2) ∧
          errs = ep
            ++ (toString bad.inventory_item, "Item not found") :: e2 ∧
          bulkFold u order stp post = (st2, c2, e2) ∧
          created = cp ++ c2) := by
  obtain ⟨hlen, hmat, hempty, newE, hhist, hnlen, hmem⟩ :=
    bulkFold_spec u order lines st
  simp only [hbf] at hlen hmat hempty hhist hnlen hmem
  refine ⟨?_, ?_, ?_⟩
  · intro hc hlines
    have hst : st2 = st := hempty hc
    have herrlen : errs.length = lines.length := by
      rw [hc] at hlen
      simpa using hlen
    have herrne : errs ≠ [] := by
      intro h0
      rw [h0] at herrlen
      exact hlines (List.length_eq_zero.mp herrlen.symm)
    have hcond : (!errs.isEmpty && created.isEmpty) = true := by
      cases errs with
      | nil => exact absurd rfl herrne
      | cons e es =>
          rw [hc]
          rfl
    refine ⟨?_, herrlen⟩
    unfold add_order_materials
    simp only [horder, hvalid, hbf, hcond]
    rw [hst]
    simp
  · intro hc
    have hcond : (!errs.isEmpty && created.isEmpty) = false := by
      cases created with
      | nil => exact absurd rfl hc
      | cons c cs => simp
    refine ⟨?_, hmat, hlen, newE, hhist, hnlen, hmem⟩
    unfold add_order_materials
    simp only [horder, hvalid, hbf, hcond]
    simp
  · intro pre bad post hsplit hbad
    subst hsplit
    rcases hpre : bulkFold u order st pre with ⟨stp, cpep⟩
    rcases cpep with ⟨cp, ep⟩
    have hbadp : findItem stp u bad.inventory_item = none := by
      have hn := bulkFold_none_preserved u order pre bad.inventory_item st hbad
      rw [hpre] at hn
      exact hn
    have hbadline : processLine u order stp bad
        = LineResult.lineError
            (toString bad.inventory_item, "Item not found") :=
      processLine_err_none u order stp bad hbadp
    rcases hpost : bulkFold u order stp post with ⟨st2x, c2e2⟩
    rcases c2e2 with ⟨c2, e2⟩
    have hfull : bulkFold u order st (pre ++ bad :: post)
        = (st2x, cp ++ c2,
           ep ++ (toString bad.inventory_item, "Item not found") :: e2) := by
      rw [bulkFold_append u order pre (bad :: post) st, hpre]
      simp only []
      rw [bulkFold_cons_err u order stp bad post _ hbadline, hpost]
    rw [hbf] at hfull
    injection hfull with h1 h23
    injection h23 with h2 h3
    have hpp : bulkFold u order st (pre ++ post)
        = (st2x, cp ++ c2, ep ++ e2) := by
      rw [bulkFold_append u order pre post st, hpre]
      simp only []
      rw [hpost]
    refine ⟨stp, cp, ep, c2, e2, rfl, ?_, ?_, ?_, h2⟩
    · rw [hpp, h1, h2]
    · exact h3
    · rw [h1]
      exact hpost

end StitchDesk

namespace StitchDesk

/-- Witness for C4 at the concrete payload (one valid line, one
missing-item line). -/
theorem C4_bulk_mixed_outcome_witness :
    exStore.orders.find? (fun o =>
        o.id == 1 && o.userId == exUser.id && !o.is_deleted)
      = some exOrder ∧
    (exBulkLines.all (fun l => quantityLineOk l.quantity)) = true ∧
    bulkFold exUser exOrder exStore exBulkLines
      = (exBulkResult.1, exBulkResult.2.1, exBulkResult.2.2) ∧
    ((exBulkResult.2.1 = [] → exBulkLines ≠ [] →
      add_order_materials exStore exUser 1 exBulkLines
          = (exStore, BulkResult.failure exBulkResult.2.2) ∧
        exBulkResult.2.2.length = exBulkLines.length) ∧
      (exBulkResult.2.1 ≠ [] →
        add_order_materials exStore exUser 1 exBulkLines
            = (exBulkResult.1,
               BulkResult.success exBulkResult.2.1 exBulkResult.2.2) ∧
          exBulkResult.1.materials
              = exStore.materials ++ exBulkResult.2.1 ∧
          exBulkResult.2.1.length + exBulkResult.2.2.length
              = exBulkLines.length ∧
          ∃ newE, exBulkResult.1.history = exStore.history ++ newE ∧
            newE.length = exBulkResult.2.1.length ∧
            ∀ om ∈ exBulkResult.2.1, ∃ en ∈ newE,
              en.order_material = some om.id ∧
              en.transaction_type = TransactionType.tOUT ∧
              en.reason = Reason.ORDER_USAGE ∧
              en.quantity = om.quantity ∧
              en.order = some exOrder.id) ∧
      (∀ pre bad post, exBulkLines = pre ++ bad :: post →
        findItem exStore exUser bad.inventory_item = none →
        ∃ stp cp ep c2 e2,
          bulkFold exUser exOrder exStore pre = (stp, cp, ep) ∧
          bulkFold exUser exOrder exStore (pre ++ post)
            = (exBulkResult.1, exBulkResult.2.1, ep ++ e2) ∧
          exBulkResult.2.2 = ep
            ++ (toString bad.inventory_item, "Item not found") :: e2 ∧
          bulkFold exUser exOrder stp post = (exBulkResult.1, c2, e2) ∧
          exBulkResult.2.1 = cp ++ c2)) :=
  ⟨by decide, by decide, rfl,
    C4_bulk_mixed_outcome exStore exBulkResult.1 exUser 1 exBulkLines
      exOrder exBulkResult.2.1 exBulkResult.2.2
      (by decide) (by decide) rfl⟩

end StitchDesk

namespace StitchDesk

/-- C10: within one bulk call, lines run sequentially in request order
and each line re-reads the persisted balance, so when two lines target
the same item the second line's availability check observes the first
line's deduction: it collects an insufficient-stock error (whose message
carries the remaining balance) exactly when the balance left after the
first line is below its quantity, and otherwise both deductions land. -/
theorem C10_bulk_sequential_reread (st : Store) (u : User) (order : Order)
    (item : InventoryItem) (l1 l2 : MaterialLine)
    (hsame : l2.inventory_item = l1.inventory_item)
    (hfind : findItem st u l1.inventory_item = some item)
    (h1 : l1.quantity ≤ item.current_stock) :
    ∃ st1 om1,
      processLine u order st l1 = LineResult.lineOk st1 om1 ∧
      om1.quantity = l1.quantity ∧
      findItem st1 u l2.inventory_item
        = some { item with
            current_stock := item.current_stock - l1.quantity } ∧
      (item.current_stock - l1.quantity < l2.quantity →
        bulkFold u order st [l1, l2]
          = (st1, [om1],
             [(item.name,
               insufficientMsg (item.current_stock - l1.quantity)
                 item.unit)])) ∧
      (¬ item.current_stock - l1.quantity < l2.quantity →
        ∃ st2 om2, om2.quantity = l2.quantity ∧
          bulkFold u order st [l1, l2] = (st2, [om1, om2], []) ∧
          findItem st2 u l2.inventory_item
            = some { item with current_stock :=
                item.current_stock - l1.quantity - l2.quantity }) := by
  have hnlt : ¬ item.current_stock < l1.quantity := not_lt.mpr h1
  obtain ⟨st1, om1, hp1⟩ := processLine_ok_of u order st l1 item hfind hnlt
  obtain ⟨item1, hf1, -, -, -, -, homq1, hitems1, -, -, -, -⟩ :=
    processLine_ok_inv u order st l1 st1 om1 hp1
  rw [hfind] at hf1
  injection hf1 with hitem1
  subst hitem1
  have hfind1 : findItem st1 u l2.inventory_item
      = some { item with
          current_stock := item.current_stock - l1.quantity } := by
    rw [hsame]
    unfold findItem
    rw [hitems1, findItem_setItemStock]
    have hb : st.items.find?
        (fun it => it.id == l1.inventory_item && it.userId == u.id
          && !it.is_deleted) = some item := hfind
    rw [hb]
    simp only [Option.map_some']
    rw [if_pos (beq_self_eq_true item.id)]
  refine ⟨st1, om1, hp1, homq1, hfind1, ?_, ?_⟩
  · intro hlt2
    have hp2 : processLine u order st1 l2
        = LineResult.lineError
            (({ item with
                current_stock := item.current_stock - l1.quantity }).name,
             insufficientMsg
               ({ item with
                  current_stock :=
                    item.current_stock - l1.quantity }).current_stock
               ({ item with
                  current_stock :=
                    item.current_stock - l1.quantity }).unit) :=
      processLine_err_insufficient u order st1 l2 _ hfind1 hlt2
    rw [bulkFold_cons_ok u order st st1 l1 [l2] om1 hp1,
      bulkFold_cons_err u order st1 l2 [] _ hp2]
    rfl
  · intro hge2
    obtain ⟨st2, om2, hp2⟩ := processLine_ok_of u order st1 l2 _ hfind1 hge2
    obtain ⟨item2, hf2, -, -, -, -, homq2, hitems2, -, -, -, -⟩ :=
      processLine_ok_inv u order st1 l2 st2 om2 hp2
    rw [hfind1] at hf2
    injection hf2 with hitem2
    subst hitem2
    refine ⟨st2, om2, homq2, ?_, ?_⟩
    · rw [bulkFold_cons_ok u order st st1 l1 [l2] om1 hp1,
        bulkFold_cons_ok u order st1 st2 l2 [] om2 hp2]
      rfl
    · unfold findItem
      rw [hitems2, findItem_setItemStock]
      have hb : st1.items.find?
          (fun it => it.id == l2.inventory_item && it.userId == u.id
            && !it.is_deleted)
          = some { item with
              current_stock := item.current_stock - l1.quantity } := hfind1
      rw [hb]
      simp only [Option.map_some']
      rw [if_pos (beq_self_eq_true _)]

end StitchDesk

namespace StitchDesk

/-- Witness for C10: two lines on the same item (3.00 then 2.50 against
balance 5.00), where the second line sees only 2.00 remaining. -/
theorem C10_bulk_sequential_reread_witness :
    exLine2.inventory_item = exLine1.inventory_item ∧
      findItem exStore exUser exLine1.inventory_item = some exItem ∧
      exLine1.quantity ≤ exItem.current_stock ∧
      (∃ st1 om1,
        processLine exUser exOrder exStore exLine1
            = LineResult.lineOk st1 om1 ∧
          om1.quantity = exLine1.quantity ∧
          findItem st1 exUser exLine2.inventory_item
            = some { exItem with
                current_stock := exItem.current_stock - exLine1.quantity } ∧
          (exItem.current_stock - exLine1.quantity < exLine2.quantity →
            bulkFold exUser exOrder exStore [exLine1, exLine2]
              = (st1, [om1],
                 [(exItem.name,
                   insufficientMsg
                     (exItem.current_stock - exLine1.quantity)
                     exItem.unit)])) ∧
          (¬ exItem.current_stock - exLine1.quantity < exLine2.quantity →
            ∃ st2 om2, om2.quantity = exLine2.quantity ∧
              bulkFold exUser exOrder exStore [exLine1, exLine2]
                  = (st2, [om1, om2], []) ∧
              findItem st2 exUser exLine2.inventory_item
                = some { exItem with current_stock :=
                    exItem.current_stock - exLine1.quantity
                      - exLine2.quantity })) :=
  ⟨by decide, by decide, by decide,
    C10_bulk_sequential_reread exStore exUser exOrder exItem exLine1 exLine2
      (by decide) (by decide) (by decide)⟩

end StitchDesk
